import Mathlib

/-!
Shallow embedding of the reconciliation core of the scylla-pg-cdc repository
(`src/reconciliation/comparer.py`, `differ.py`, `repairer.py`), together with
theorems settling the specification claims about it.

Python values flowing through the core are modelled by the inductive `Value`;
Python `dict` rows are association lists in insertion order (Python dicts keep
insertion order and have unique keys).  Wall-clock timestamps
(`datetime.now()`) are passed in as explicit string parameters.  Python string
renderings that no claim depends on (float/decimal/datetime `str()` output)
are modelled by clearly named total functions.
-/

namespace ScyllaPgCdc

/-- Model of the Python values handled by the reconciliation core:
`None`, `str`, `bool`, `int`, `float` (modelled as an exact rational),
`uuid.UUID` (carried as its canonical lowercase hyphenated string form),
`decimal.Decimal` (sign, coefficient digits as a natural number, exponent),
`datetime.datetime` (wall-clock instant as an integer together with an
optional UTC-offset; `none` models a naive datetime), lists, dicts, and a
catch-all `otherV` for any other Python object, carrying the object's type
name and its `str()` rendering. -/
inductive Value where
  | nullV
  | strV (s : String)
  | boolV (b : Bool)
  | intV (n : Int)
  | floatV (q : ℚ)
  | uuidV (s : String)
  | decimalV (neg : Bool) (m : Nat) (e : Int)
  | datetimeV (t : Int) (tz : Option Int)
  | listV (xs : List Value)
  | dictV (xs : List (String × Value))
  | otherV (tyName : String) (strForm : String)
deriving Inhabited

/-- A row (`Dict[str, Any]`): association list in dict insertion order. -/
abbrev Row := List (String × Value)

/-- `row.keys()`. -/
def rowKeys (r : Row) : List String := r.map Prod.fst

/-- `row.get(field)` / `field in row` style lookup (first match). -/
def rowLookup (r : Row) (f : String) : Option Value := List.lookup f r

/-- `row[field]`, defaulting to `None` (all call sites in the claims have the
field present, mirroring Python's `KeyError`-free uses). -/
def rowGet (r : Row) (f : String) : Value := (rowLookup r f).getD Value.nullV

/-- Strip trailing zero digits from a decimal coefficient, bumping the
exponent, as `decimal.Decimal.normalize` does; a zero coefficient collapses
to exponent 0. -/
def stripZeros (m : Nat) (e : Int) : Nat × Int :=
  if h : m = 0 then (0, 0)
  else if m % 10 = 0 then stripZeros (m / 10) (e + 1)
  else (m, e)
termination_by m
decreasing_by
  exact Nat.div_lt_self (Nat.pos_of_ne_zero h) (by norm_num)

mutual

/-- `comparer.RowComparer._normalize_value` (comparer.py lines 190-229):
`None` stays `None`; `UUID` becomes its string; `Decimal` is normalized
(trailing zeros stripped); a naive `datetime` gets UTC attached, an aware one
is untouched; lists and dicts are normalized recursively; anything else
passes through unchanged. -/
def normalizeValue : Value → Value
  | .nullV => .nullV
  | .uuidV s => .strV s
  | .decimalV neg m e =>
      let p := stripZeros m e
      .decimalV neg p.1 p.2
  | .datetimeV t tz =>
      match tz with
      | none => .datetimeV t (some 0)
      | some o => .datetimeV t (some o)
  | .listV xs => .listV (normalizeList xs)
  | .dictV xs => .dictV (normalizeDict xs)
  | .strV s => .strV s
  | .boolV b => .boolV b
  | .intV n => .intV n
  | .floatV q => .floatV q
  | .otherV ty s => .otherV ty s

def normalizeList : List Value → List Value
  | [] => []
  | x :: xs => normalizeValue x :: normalizeList xs

def normalizeDict : List (String × Value) → List (String × Value)
  | [] => []
  | (k, v) :: xs => (k, normalizeValue v) :: normalizeDict xs

end

/-- `comparer.RowComparer.normalize_row`: normalize every field value. -/
def normalizeRow (r : Row) : Row := normalizeDict r

/-- Numeric view of a value, modelling Python's numeric tower for `==`:
`bool`, `int`, `float` and `Decimal` compare by numeric value. -/
def numVal : Value → Option ℚ
  | .boolV b => some (if b then 1 else 0)
  | .intV n => some (n : ℚ)
  | .floatV q => some q
  | .decimalV neg m e => some ((if neg then -1 else 1) * (m : ℚ) * (10 : ℚ) ^ e)
  | _ => none

/-- Python `==` on two datetimes: naive compares wall-clock, aware compares
the denoted instant (wall-clock minus offset), naive vs aware is `False`. -/
def dtEq (t1 : Int) (z1 : Option Int) (t2 : Int) (z2 : Option Int) : Bool :=
  match z1, z2 with
  | none, none => t1 == t2
  | some o1, some o2 => (t1 - o1) == (t2 - o2)
  | _, _ => false

mutual

/-- Model of Python `==` between two values (the comparer's and repairer's
`value1 == value2` / `!=` expressions): numeric types compare by value,
strings/UUIDs by content, datetimes by instant, containers recursively;
distinct objects of other types compare unequal (default identity `==`). -/
def pyEq : Value → Value → Bool
  | .listV xs, .listV ys => pyEqList xs ys
  | .dictV xs, .dictV ys =>
      ((xs.map Prod.fst).all fun k => (ys.map Prod.fst).contains k) &&
      ((ys.map Prod.fst).all fun k => (xs.map Prod.fst).contains k) &&
      pyEqDictVals xs ys
  | v, w =>
      match numVal v, numVal w with
      | some a, some b => a == b
      | _, _ =>
        match v, w with
        | .nullV, .nullV => true
        | .strV s, .strV t => s == t
        | .uuidV s, .uuidV t => s == t
        | .datetimeV t1 z1, .datetimeV t2 z2 => dtEq t1 z1 t2 z2
        | _, _ => false

def pyEqList : List Value → List Value → Bool
  | [], [] => true
  | x :: xs, y :: ys => pyEq x y && pyEqList xs ys
  | _, _ => false

def pyEqDictVals : List (String × Value) → List (String × Value) → Bool
  | [], _ => true
  | (k, v) :: rest, ys =>
      pyEq v ((List.lookup k ys).getD Value.nullV) && pyEqDictVals rest ys

end

mutual

/-- `comparer.RowComparer._values_equal` (comparer.py lines 231-288), with the
comparer's current `float_tolerance` passed explicitly: nulls are equal only
to nulls; UUID/string content equality; Decimals compare after normalization
(numerically); floats within `tolerance`; datetimes by UTC-defaulted instant;
lists element-wise in order; dicts by key set plus per-key equality; anything
else falls through to Python `==`. -/
def valuesEqual (tol : ℚ) : Value → Value → Bool
  | .nullV, .nullV => true
  | .nullV, _ => false
  | _, .nullV => false
  | .strV s, .uuidV u => s == u
  | .uuidV u, .strV s => u == s
  | .uuidV u1, .uuidV u2 => u1 == u2
  | .decimalV n1 m1 e1, .decimalV n2 m2 e2 =>
      decide ((if n1 then -1 else 1) * (m1 : ℚ) * (10 : ℚ) ^ e1 =
              (if n2 then -1 else 1) * (m2 : ℚ) * (10 : ℚ) ^ e2)
  | .floatV a, .floatV b => decide (|a - b| < tol)
  | .datetimeV t1 z1, .datetimeV t2 z2 =>
      (t1 - (z1.getD 0)) == (t2 - (z2.getD 0))
  | .listV xs, .listV ys =>
      xs.length == ys.length && valuesEqualList tol xs ys
  | .dictV xs, .dictV ys =>
      ((xs.map Prod.fst).all fun k => (ys.map Prod.fst).contains k) &&
      ((ys.map Prod.fst).all fun k => (xs.map Prod.fst).contains k) &&
      valuesEqualDictVals tol xs ys
  | v, w => pyEq v w

def valuesEqualList (tol : ℚ) : List Value → List Value → Bool
  | [], _ => true
  | _, [] => true
  | x :: xs, y :: ys => valuesEqual tol x y && valuesEqualList tol xs ys

def valuesEqualDictVals (tol : ℚ) : List (String × Value) → List (String × Value) → Bool
  | [], _ => true
  | (k, v) :: rest, ys =>
      valuesEqual tol v ((List.lookup k ys).getD Value.nullV) &&
      valuesEqualDictVals tol rest ys

end

/-- Python-dict upsert: replacing an existing key keeps its position, a new
key is appended (dict insertion-order semantics). -/
def upsert {α β : Type} [BEq α] (m : List (α × β)) (k : α) (v : β) :
    List (α × β) :=
  if m.any (fun p => p.1 == k) then
    m.map (fun p => if p.1 == k then (k, v) else p)
  else
    m ++ [(k, v)]

/-- `RowComparer.__init__`: `self.float_tolerance = 0.0001`. -/
def defaultFloatTolerance : ℚ := 1 / 10000

/-- The dict comprehension over a field set in `compare_rows`'s
case-insensitive branch (`f.lower(): f`), modelled over the keys in row
order (Python iterates the set in hash order; no claim depends on which
member of a case-insensitive group wins). -/
def lowerFieldMap (ks : List String) : List (String × String) :=
  ks.foldl (fun acc f => upsert acc f.toLower f) []

/-- The `(scylla_field, postgres_field)` pairs compared by
`compare_rows` (comparer.py lines 58-80): field-name intersection,
case-folded when requested, with `ignore_fields` removed. -/
def commonFieldPairs (a b : Row) (ignoreFields : Option (List String))
    (caseSensitive : Bool) : List (String × String) :=
  let scyllaFields := rowKeys a
  let postgresFields := rowKeys b
  let pairs :=
    if caseSensitive then
      (scyllaFields.filter fun f => postgresFields.contains f).map fun f => (f, f)
    else
      let am := lowerFieldMap scyllaFields
      let bm := lowerFieldMap postgresFields
      ((am.map Prod.fst).filter fun f => (bm.map Prod.fst).contains f).map
        fun f => ((List.lookup f am).getD f, (List.lookup f bm).getD f)
  match ignoreFields with
  | none => pairs
  | some ig =>
      let igSet := ig.map fun f => if caseSensitive then f else f.toLower
      pairs.filter fun p =>
        !(igSet.contains (if caseSensitive then p.1 else p.1.toLower))

/-- The boolean result of `compare_rows` once the effective tolerance is
fixed: normalize both rows, then require every common field pair equal. -/
def compareRowsCore (tol : ℚ) (a b : Row) (ignoreFields : Option (List String))
    (caseSensitive : Bool) : Bool :=
  let na := normalizeRow a
  let nb := normalizeRow b
  (commonFieldPairs na nb ignoreFields caseSensitive).all fun p =>
    valuesEqual tol (rowGet na p.1) (rowGet nb p.2)

/-- `comparer.RowComparer.compare_rows` (comparer.py lines 30-94) as a state
transformer on the comparer's stored `float_tolerance`: when the
`float_tolerance` argument is given it is assigned to
`self.float_tolerance` before comparing (and persists); the returned pair is
(result, resulting stored tolerance). -/
def compareRows (state : ℚ) (a b : Row) (ignoreFields : Option (List String))
    (caseSensitive : Bool) (floatTolerance : Option ℚ) : Bool × ℚ :=
  let tol := match floatTolerance with
    | some t => t
    | none => state
  (compareRowsCore tol a b ignoreFields caseSensitive, tol)

/-- Abstract rendering of `datetime.isoformat()` over the model's
(wall-clock, offset) pair; no claim depends on the exact text. -/
def pyIsoformat (t : Int) (tz : Option Int) : String :=
  "dt:" ++ toString t ++ (match tz with
    | none => ""
    | some o => "@" ++ toString o)

/-- Model of Python `str(value)` for the value model.  Renderings of floats,
decimals, datetimes and containers are abstract (clearly tagged) — no claim
depends on their exact text; `str` of strings/ints/bools/UUIDs and of
`otherV` (which carries its own `str()` form) are exact. -/
def pyStr : Value → String
  | .nullV => "None"
  | .strV s => s
  | .boolV b => if b then "True" else "False"
  | .intV n => toString n
  | .floatV q => "float:" ++ toString q
  | .uuidV s => s
  | .decimalV neg m e =>
      "dec:" ++ (if neg then "-" else "") ++ toString m ++ "E" ++ toString e
  | .datetimeV t tz => pyIsoformat t tz
  | .listV _ => "list:opaque"
  | .dictV _ => "dict:opaque"
  | .otherV _ s => s

/-- A key specification: one field name or an ordered list of field names. -/
inductive KeySpec where
  | single (f : String)
  | composite (fs : List String)

/-- An extracted key: a string for a single key, a tuple of strings for a
composite key (`differ.DataDiffer._extract_key`'s return type). -/
inductive PyKey where
  | str (s : String)
  | tup (vs : List String)
deriving BEq, DecidableEq, Inhabited

/-- Rendering of `list(row.keys())` used in the missing-key error message. -/
def showFieldList (ks : List String) : String :=
  "[" ++ String.intercalate ", " (ks.map fun k => "\x27" ++ k ++ "\x27") ++ "]"

/-- Abstract rendering of `str(row)` used in the null-key error message; no
claim depends on the exact text. -/
def showRowStr (r : Row) : String :=
  "\x7b" ++
    String.intercalate ", "
      (r.map fun p => "\x27" ++ p.1 ++ "\x27: " ++ pyStr p.2) ++ "\x7d"

/-- One field of `differ.DataDiffer._extract_key` (differ.py lines 490-551):
missing field and null value are errors with the source's messages;
otherwise the key component is `str(value)`, lowercased when keys are
case-insensitive. -/
def extractKeySingle (row : Row) (field : String) (caseSensitive : Bool) :
    Except String String :=
  match rowLookup row field with
  | none =>
      .error ("Key field \x27" ++ field ++
        "\x27 not found in row. Available fields: " ++
        showFieldList (rowKeys row))
  | some .nullV =>
      .error ("Key field \x27" ++ field ++
        "\x27 has NULL value in row. Keys cannot be NULL. Row: " ++
        showRowStr row)
  | some v =>
      let s := pyStr v
      .ok (if caseSensitive then s else s.toLower)

/-- The composite-key loop of `_extract_key`: field components in declared
order, failing on the first missing/null field. -/
def extractKeyComposite (row : Row) (fields : List String)
    (caseSensitive : Bool) : Except String (List String) :=
  match fields with
  | [] => .ok []
  | f :: fs => do
      let s ← extractKeySingle row f caseSensitive
      let rest ← extractKeyComposite row fs caseSensitive
      .ok (s :: rest)

/-- `differ.DataDiffer._extract_key`: string key for a single field, tuple
key for a composite specification. -/
def extractKey (row : Row) (ks : KeySpec) (caseSensitive : Bool) :
    Except String PyKey :=
  match ks with
  | .single f => (extractKeySingle row f caseSensitive).map PyKey.str
  | .composite fs => (extractKeyComposite row fs caseSensitive).map PyKey.tup

/-- A key index: Python dict from key to row, in insertion order. -/
abbrev KeyIndex := List (PyKey × Row)

/-- `index.keys()`. -/
def indexKeys (m : KeyIndex) : List PyKey := m.map Prod.fst

/-- `index[key]` lookup. -/
def indexLookup (m : KeyIndex) (k : PyKey) : Option Row := List.lookup k m

/-- The `enumerate(data)` loop of `build_key_index`: on the first extraction
failure the error is re-raised as
`Invalid row at index i: <original message>`; otherwise keys are upserted
into the dict (duplicate keys keep the last row). -/
def buildKeyIndexGo (ks : KeySpec) (caseSensitive : Bool) (i : Nat)
    (acc : KeyIndex) : List Row → Except String KeyIndex
  | [] => .ok acc
  | r :: rs =>
      match extractKey r ks caseSensitive with
      | .ok k => buildKeyIndexGo ks caseSensitive (i + 1) (upsert acc k r) rs
      | .error e => .error ("Invalid row at index " ++ toString i ++ ": " ++ e)

/-- `differ.DataDiffer.build_key_index` (differ.py lines 353-389). -/
def buildKeyIndex (data : List Row) (ks : KeySpec) (caseSensitive : Bool) :
    Except String KeyIndex :=
  buildKeyIndexGo ks caseSensitive 0 [] data

/-- `differ.DataDiffer.find_missing_in_target` (differ.py lines 32-59):
keys in the source index absent from the target index, materialized as
source rows.  (Python iterates the key set in hash order; only the
collection's membership and size are claim-relevant.) -/
def findMissingInTarget (sourceData targetData : List Row) (ks : KeySpec)
    (caseSensitive : Bool) : Except String (List Row) := do
  let si ← buildKeyIndex sourceData ks caseSensitive
  let ti ← buildKeyIndex targetData ks caseSensitive
  let missingKeys := (indexKeys si).filter fun k => !(indexKeys ti).contains k
  .ok (missingKeys.filterMap fun k => indexLookup si k)

/-- `differ.DataDiffer.find_extra_in_target` (differ.py lines 61-86):
keys in the target index absent from the source index, materialized as
target rows (always case-sensitive: the source passes no flag). -/
def findExtraInTarget (sourceData targetData : List Row) (ks : KeySpec) :
    Except String (List Row) := do
  let si ← buildKeyIndex sourceData ks true
  let ti ← buildKeyIndex targetData ks true
  let extraKeys := (indexKeys ti).filter fun k => !(indexKeys si).contains k
  .ok (extraKeys.filterMap fun k => indexLookup ti k)

/-- A mismatch record `{key, scylla, postgres}`. -/
structure Mismatch where
  key : PyKey
  scylla : Row
  postgres : Row

/-- `differ.DataDiffer.find_mismatches` (differ.py lines 88-127): common
keys whose rows the comparer rejects.  The differ's own `RowComparer` is
fresh with the default tolerance and `compare_rows` is called without
`float_tolerance`, so its stored tolerance never changes. -/
def findMismatches (sourceData targetData : List Row) (ks : KeySpec)
    (ignoreFields : Option (List String)) : Except String (List Mismatch) := do
  let si ← buildKeyIndex sourceData ks true
  let ti ← buildKeyIndex targetData ks true
  let commonKeys := (indexKeys si).filter fun k => (indexKeys ti).contains k
  .ok (commonKeys.filterMap fun k =>
    match indexLookup si k, indexLookup ti k with
    | some a, some b =>
        if !(compareRows defaultFloatTolerance a b ignoreFields true none).1
        then some ⟨k, a, b⟩ else none
    | _, _ => none)

/-- The discrepancy record returned by `find_all_discrepancies`. -/
structure Discrepancies where
  missing : List Row
  extra : List Row
  mismatches : List Mismatch

/-- `differ.DataDiffer.find_all_discrepancies` (differ.py lines 176-213). -/
def findAllDiscrepancies (sourceData targetData : List Row) (ks : KeySpec)
    (ignoreFields : Option (List String)) : Except String Discrepancies := do
  let missing ← findMissingInTarget sourceData targetData ks true
  let extra ← findExtraInTarget sourceData targetData ks
  let mismatches ← findMismatches sourceData targetData ks ignoreFields
  .ok ⟨missing, extra, mismatches⟩

/-- The running totals of `find_all_discrepancies_batched`. -/
structure BatchCounts where
  missingCount : Nat
  extraCount : Nat
  mismatchCount : Nat
deriving DecidableEq

/-- `differ.DataDiffer.find_all_discrepancies_batched` (differ.py lines
215-278): both indices are built in full; the index key lists are processed
in slices `[i : i+batch_size]`; per slice, missing/extra are counted against
the full opposite key set, while candidate mismatches are the intersection
of the source slice with the target slice at the same offset.  A zero batch
size is Python's `range()` step error. -/
def findAllDiscrepanciesBatched (sourceData targetData : List Row)
    (ks : KeySpec) (batchSize : Nat) (ignoreFields : Option (List String)) :
    Except String BatchCounts := do
  let si ← buildKeyIndex sourceData ks true
  let ti ← buildKeyIndex targetData ks true
  if batchSize = 0 then
    .error "range() arg 3 must not be zero"
  else
    let sk := indexKeys si
    let tk := indexKeys ti
    let n := max sk.length tk.length
    let starts := (List.range ((n + batchSize - 1) / batchSize)).map
      (· * batchSize)
    .ok (starts.foldl
      (fun (c : BatchCounts) i =>
        let batchSrc := (sk.drop i).take batchSize
        let batchTgt := (tk.drop i).take batchSize
        let batchMissing := batchSrc.filter fun k => !tk.contains k
        let batchExtra := batchTgt.filter fun k => !sk.contains k
        let batchCommon := batchSrc.filter fun k => batchTgt.contains k
        let batchMismatch := batchCommon.filter fun k =>
          match indexLookup si k, indexLookup ti k with
          | some a, some b =>
              !(compareRows defaultFloatTolerance a b ignoreFields true none).1
          | _, _ => false
        ⟨c.missingCount + batchMissing.length,
         c.extraCount + batchExtra.length,
         c.mismatchCount + batchMismatch.length⟩)
      ⟨0, 0, 0⟩)

/-- Python 3's `round` to an integer: round half to even. -/
def roundHalfEven (q : ℚ) : ℤ :=
  let f := ⌊q⌋
  let r := q - f
  if r < 1 / 2 then f
  else if 1 / 2 < r then f + 1
  else if f % 2 = 0 then f else f + 1

/-- `round(x, 2)` over the rational model of Python floats. -/
def pyRound2 (q : ℚ) : ℚ := (roundHalfEven (q * 100) : ℚ) / 100

/-- `differ.DataDiffer.calculate_match_percentage` (differ.py lines
420-446): 100.0 for zero source rows, otherwise
`round((total - missing - mismatches) / total * 100, 2)`. -/
def calculateMatchPercentage (d : Discrepancies) (totalSourceRows : Nat) : ℚ :=
  if totalSourceRows = 0 then 100
  else
    let totalIssues : ℤ := d.missing.length + d.mismatches.length
    let matchingRows : ℚ := (totalSourceRows : ℚ) - (totalIssues : ℚ)
    pyRound2 (matchingRows / (totalSourceRows : ℚ) * 100)

/-- `value.replace("'", "''")`: double every embedded single quote
(written character by character; the pattern is a single character, so this
is exactly Python's replace). -/
def escapeSingleQuotes (s : String) : String :=
  String.mk (s.data.foldr
    (fun c acc => if c = '\x27' then '\x27' :: '\x27' :: acc else c :: acc) [])

mutual

/-- Model of `json.dumps` for list/dict field values (repairer.py lines
457-460).  JSON string escaping is not modelled and scalars that real
`json.dumps` would reject fall back to their `str` form; no claim depends on
this rendering. -/
def pyJson : Value → String
  | .nullV => "null"
  | .strV s => "\"" ++ s ++ "\""
  | .boolV b => if b then "true" else "false"
  | .intV n => toString n
  | .floatV q => "float:" ++ toString q
  | .listV xs => "[" ++ String.intercalate ", " (pyJsonList xs) ++ "]"
  | .dictV xs => "\x7b" ++ String.intercalate ", " (pyJsonDict xs) ++ "\x7d"
  | v => pyStr v

def pyJsonList : List Value → List String
  | [] => []
  | x :: xs => pyJson x :: pyJsonList xs

def pyJsonDict : List (String × Value) → List String
  | [] => []
  | (k, v) :: xs => ("\"" ++ k ++ "\": " ++ pyJson v) :: pyJsonDict xs

end

/-- `repairer.DataRepairer._format_value` (repairer.py lines 430-464):
`None` → `NULL`; strings single-quoted with embedded quotes doubled;
booleans → `TRUE`/`FALSE`; int/float → bare literal; datetime → quoted
isoformat; list/dict → quoted JSON text with quotes doubled; ANY other type
(UUID, Decimal, arbitrary objects) falls to the default branch and is
silently stringified as a quoted literal — the function is total and never
raises. -/
def formatValue : Value → String
  | .nullV => "NULL"
  | .strV s => "\x27" ++ escapeSingleQuotes s ++ "\x27"
  | .boolV b => if b then "TRUE" else "FALSE"
  | .intV n => toString n
  | .floatV q => "float:" ++ toString q
  | .datetimeV t tz => "\x27" ++ pyIsoformat t tz ++ "\x27"
  | .listV xs => "\x27" ++ escapeSingleQuotes (pyJson (.listV xs)) ++ "\x27"
  | .dictV xs => "\x27" ++ escapeSingleQuotes (pyJson (.dictV xs)) ++ "\x27"
  | v => "\x27" ++ escapeSingleQuotes (pyStr v) ++ "\x27"

/-- `repairer.DataRepairer._format_table_name` (repairer.py lines 408-428):
double-quotes schema and table only when `quote_identifiers` is set. -/
def formatTableName (schema tableName : String) (quoteIdentifiers : Bool) :
    String :=
  if quoteIdentifiers then
    "\"" ++ schema ++ "\".\"" ++ tableName ++ "\""
  else
    schema ++ "." ++ tableName

/-- `repairer.DataRepairer._build_where_clause` (repairer.py lines 381-406):
`field = value` equalities joined by `AND` for composite keys; identifiers
are never quoted here. -/
def buildWhereClause (row : Row) (ks : KeySpec) : String :=
  match ks with
  | .composite fields =>
      String.intercalate " AND "
        (fields.map fun f => f ++ " = " ++ formatValue (rowGet row f))
  | .single f => f ++ " = " ++ formatValue (rowGet row f)

/-- A repair action dictionary.  Fields that the generators leave absent and
the `generate_repair_actions` loop adds later are `Option`s. -/
structure Action where
  actionType : String
  table : String
  sql : String
  rowData : List Row
  updatedFields : Option (List String)
  batchSize : Option Nat
  timestamp : String
  dryRun : Option Bool
  status : Option String
  generatedAt : Option String
  discrepancyType : Option String

/-- `repairer.DataRepairer.generate_insert_sql` (repairer.py lines 202-237):
column list is the row's field list, values formatted by `_format_value`;
column identifiers are never quoted, the table reference only on request. -/
def generateInsertSql (row : Row) (tableName schema : String)
    (quoteIdentifiers : Bool) (ts : String) : Action :=
  let tableRef := formatTableName schema tableName quoteIdentifiers
  let fields := rowKeys row
  let values := fields.map fun f => formatValue (rowGet row f)
  { actionType := "INSERT"
    table := schema ++ "." ++ tableName
    sql := "INSERT INTO " ++ tableRef ++ " (" ++
      String.intercalate ", " fields ++ ") VALUES (" ++
      String.intercalate ", " values ++ ");"
    rowData := [row]
    updatedFields := none
    batchSize := none
    timestamp := ts
    dryRun := none
    status := none
    generatedAt := none
    discrepancyType := none }

/-- `repairer.DataRepairer.generate_delete_sql` (repairer.py lines 239-272). -/
def generateDeleteSql (row : Row) (tableName schema : String) (ks : KeySpec)
    (quoteIdentifiers : Bool) (ts : String) : Action :=
  let tableRef := formatTableName schema tableName quoteIdentifiers
  { actionType := "DELETE"
    table := schema ++ "." ++ tableName
    sql := "DELETE FROM " ++ tableRef ++ " WHERE " ++
      buildWhereClause row ks ++ ";"
    rowData := [row]
    updatedFields := none
    batchSize := none
    timestamp := ts
    dryRun := none
    status := none
    generatedAt := none
    discrepancyType := none }

/-- The key-field list `[key_field] if isinstance(key_field, str) else
key_field`. -/
def keySpecFields (ks : KeySpec) : List String :=
  match ks with
  | .single f => [f]
  | .composite fs => fs

/-- `repairer.DataRepairer.generate_update_sql` (repairer.py lines 274-331):
update the fields present in both rows whose raw values differ under Python
`!=`; when none differ, fall back to every non-key source field. -/
def generateUpdateSql (mismatch : Mismatch) (tableName schema : String)
    (ks : KeySpec) (quoteIdentifiers : Bool) (ts : String) : Action :=
  let tableRef := formatTableName schema tableName quoteIdentifiers
  let scyllaRow := mismatch.scylla
  let postgresRow := mismatch.postgres
  let differing := (rowKeys scyllaRow).filter fun f =>
    (rowKeys postgresRow).contains f &&
    !(pyEq (rowGet scyllaRow f) (rowGet postgresRow f))
  let updateFields :=
    if differing.isEmpty then
      (rowKeys scyllaRow).filter fun f => !(keySpecFields ks).contains f
    else differing
  let setClause := String.intercalate ", "
    (updateFields.map fun f => f ++ " = " ++ formatValue (rowGet scyllaRow f))
  { actionType := "UPDATE"
    table := schema ++ "." ++ tableName
    sql := "UPDATE " ++ tableRef ++ " SET " ++ setClause ++ " WHERE " ++
      buildWhereClause scyllaRow ks ++ ";"
    rowData := [scyllaRow]
    updatedFields := some updateFields
    batchSize := none
    timestamp := ts
    dryRun := none
    status := none
    generatedAt := none
    discrepancyType := none }

/-- One values-tuple of the batch INSERT: `row.get(field)` for each of the
first row's fields, absent fields rendering as `NULL`. -/
def batchRowValues (fields : List String) (r : Row) : List String :=
  fields.map fun f => formatValue ((rowLookup r f).getD Value.nullV)

/-- `repairer.DataRepairer._generate_batch_insert_sql` (repairer.py lines
333-379): raises on empty input; the column list comes from the FIRST row
only, and every row renders one tuple over exactly those columns. -/
def generateBatchInsertSql (rows : List Row) (tableName schema : String)
    (quoteIdentifiers : Bool) (ts : String) : Except String Action :=
  match rows with
  | [] => .error "Cannot generate batch insert for empty rows"
  | r0 :: rest =>
      let tableRef := formatTableName schema tableName quoteIdentifiers
      let fields := rowKeys r0
      let valuesList := (r0 :: rest).map fun r =>
        "(" ++ String.intercalate ", " (batchRowValues fields r) ++ ")"
      .ok
        { actionType := "INSERT"
          table := schema ++ "." ++ tableName
          sql := "INSERT INTO " ++ tableRef ++ " (" ++
            String.intercalate ", " fields ++ ") VALUES\n    " ++
            String.intercalate ",\n    " valuesList ++ ";"
          rowData := rows
          updatedFields := none
          batchSize := some rows.length
          timestamp := ts
          dryRun := none
          status := none
          generatedAt := none
          discrepancyType := none }

/-- The `range(0, len(rows), batch_size)` slicing loop of
`generate_insert_actions`: consecutive chunks of `batchSize` rows. -/
def listChunks {α : Type} (batchSize : Nat) : List α → List (List α)
  | [] => []
  | x :: xs =>
      if h : batchSize = 0 then []
      else
        ((x :: xs).take batchSize) ::
          listChunks batchSize ((x :: xs).drop batchSize)
termination_by l => l.length
decreasing_by
  simp only [List.length_drop, List.length_cons]
  omega

/-- `repairer.DataRepairer.generate_insert_actions` (repairer.py lines
107-146): batch inserts when a batch size above 1 is supplied, otherwise one
INSERT per row (with default unquoted identifiers). -/
def generateInsertActions (missingRows : List Row) (tableName schema : String)
    (batchSize : Option Nat) (ts : String) : Except String (List Action) :=
  if missingRows.isEmpty then .ok []
  else
    match batchSize with
    | some bs =>
        if bs > 1 then
          (listChunks bs missingRows).mapM fun b =>
            generateBatchInsertSql b tableName schema false ts
        else
          .ok (missingRows.map fun r => generateInsertSql r tableName schema false ts)
    | none =>
        .ok (missingRows.map fun r => generateInsertSql r tableName schema false ts)

/-- `repairer.DataRepairer.generate_delete_actions` (repairer.py lines
148-173). -/
def generateDeleteActions (extraRows : List Row) (tableName schema : String)
    (ks : KeySpec) (ts : String) : List Action :=
  extraRows.map fun r => generateDeleteSql r tableName schema ks false ts

/-- `repairer.DataRepairer.generate_update_actions` (repairer.py lines
175-200). -/
def generateUpdateActions (mismatchedRows : List Mismatch)
    (tableName schema : String) (ks : KeySpec) (ts : String) : List Action :=
  mismatchedRows.map fun m => generateUpdateSql m tableName schema ks false ts

/-- The metadata loop of `generate_repair_actions` (repairer.py lines
84-97): stamps dry-run flag and pending status, and (when requested) the
generation timestamp and the discrepancy type derived from the action
type. -/
def applyMeta (dryRun includeMetadata : Bool) (ts : String) (a : Action) :
    Action :=
  let a1 := { a with dryRun := some dryRun, status := some "pending" }
  if includeMetadata then
    { a1 with
      generatedAt := some ts
      discrepancyType :=
        if a1.actionType == "INSERT" then some "missing"
        else if a1.actionType == "DELETE" then some "extra"
        else if a1.actionType == "UPDATE" then some "mismatch"
        else a1.discrepancyType }
  else a1

/-- `repairer.DataRepairer.generate_repair_actions` (repairer.py lines
30-105): DELETE actions for `extra` first, then INSERT for `missing`, then
UPDATE for `mismatches`, each through the metadata loop.  The `prioritize`
flag is accepted but never read by the source.  Wall-clock `now()` is the
`ts` parameter.  The source calls `generate_insert_actions` without a batch
size, which is exactly the per-row INSERT branch inlined here (the lemma
`generateInsertActions_none` below records that equality), so the function
is total. -/
def generateRepairActions (d : Discrepancies) (tableName schema : String)
    (ks : KeySpec) (dryRun includeMetadata prioritize : Bool) (ts : String) :
    List Action :=
  let deleteActions := generateDeleteActions d.extra tableName schema ks ts
  let insertActions := d.missing.map fun r =>
    generateInsertSql r tableName schema false ts
  let updateActions := generateUpdateActions d.mismatches tableName schema ks ts
  (deleteActions ++ insertActions ++ updateActions).map
    (applyMeta dryRun includeMetadata ts)

/-! ## Helper lemmas -/

theorem stripZeros_spec (m : Nat) : ∀ e : Int,
    stripZeros m e = (0, 0) ∨ (stripZeros m e).1 % 10 ≠ 0 := by
  induction m using Nat.strong_induction_on with
  | _ m ih =>
    intro e
    rw [stripZeros]
    by_cases h0 : m = 0
    · simp [h0]
    · by_cases h10 : m % 10 = 0
      · simpa [h0, h10] using
          ih (m / 10) (Nat.div_lt_self (Nat.pos_of_ne_zero h0) (by norm_num)) (e + 1)
      · simp [h0, h10]

theorem stripZeros_idem (m : Nat) (e : Int) :
    stripZeros (stripZeros m e).1 (stripZeros m e).2 = stripZeros m e := by
  rcases stripZeros_spec m e with h | h
  · rw [h]
    rw [stripZeros]
    simp
  · rcases hp : stripZeros m e with ⟨m', e'⟩
    rw [hp] at h
    simp only at h
    have hm' : m' ≠ 0 := by
      intro h0
      exact h (by simp [h0])
    rw [stripZeros]
    simp [hm', h]

mutual

theorem normalizeValue_idem : (v : Value) →
    normalizeValue (normalizeValue v) = normalizeValue v
  | .nullV => rfl
  | .strV _ => rfl
  | .boolV _ => rfl
  | .intV _ => rfl
  | .floatV _ => rfl
  | .uuidV _ => rfl
  | .otherV _ _ => rfl
  | .datetimeV _ tz => by cases tz <;> rfl
  | .decimalV neg m e => by
      simp only [normalizeValue]
      rw [stripZeros_idem]
  | .listV xs => by
      simp only [normalizeValue]
      rw [normalizeList_idem xs]
  | .dictV xs => by
      simp only [normalizeValue]
      rw [normalizeDict_idem xs]

theorem normalizeList_idem : (xs : List Value) →
    normalizeList (normalizeList xs) = normalizeList xs
  | [] => rfl
  | x :: xs => by
      simp only [normalizeList]
      rw [normalizeValue_idem x, normalizeList_idem xs]

theorem normalizeDict_idem : (xs : List (String × Value)) →
    normalizeDict (normalizeDict xs) = normalizeDict xs
  | [] => rfl
  | (k, v) :: xs => by
      simp only [normalizeDict]
      rw [normalizeValue_idem v, normalizeDict_idem xs]

end

theorem generateInsertActions_none (rows : List Row) (tableName schema ts : String) :
    generateInsertActions rows tableName schema none ts =
      Except.ok (rows.map fun r => generateInsertSql r tableName schema false ts) := by
  cases rows <;> simp [generateInsertActions]

theorem buildKeyIndexGo_error (ks : KeySpec) (cs : Bool) :
    ∀ (data : List Row) (start i : Nat) (acc : KeyIndex) (hi : i < data.length),
      (∀ (j : Nat) (hj : j < i), ∃ k, extractKey (data.get ⟨j, hj.trans hi⟩) ks cs = Except.ok k) →
      (∀ k, extractKey (data.get ⟨i, hi⟩) ks cs ≠ Except.ok k) →
      ∃ e, buildKeyIndexGo ks cs start acc data =
        Except.error ("Invalid row at index " ++ toString (start + i) ++ ": " ++ e)
  | [], _, i, _, hi => by exact absurd hi (by simp)
  | r :: rs, start, 0, acc, hi => by
      intro _ hfail
      rcases hE : extractKey r ks cs with e | k
      · refine ⟨e, ?_⟩
        simp [buildKeyIndexGo, hE]
      · exact absurd hE (hfail k)
  | r :: rs, start, j + 1, acc, hi => by
      intro hok hfail
      obtain ⟨k0, hk00⟩ := hok 0 (Nat.succ_pos j)
      have hk0 : extractKey r ks cs = Except.ok k0 := hk00
      have hi' : j < rs.length := by
        simpa using hi
      have step := buildKeyIndexGo_error ks cs rs (start + 1) j
        (upsert acc k0 r) hi'
        (fun j' hj' => by
          simpa using hok (j' + 1) (Nat.succ_lt_succ hj'))
        (fun k hk => hfail k (by simpa using hk))
      obtain ⟨e, he⟩ := step
      refine ⟨e, ?_⟩
      rw [show start + 1 + j = start + (j + 1) by omega] at he
      simpa [buildKeyIndexGo, hk0] using he

theorem buildKeyIndexGo_ok (ks : KeySpec) (cs : Bool) :
    ∀ (data : List Row) (start : Nat) (acc : KeyIndex),
      (∀ r ∈ data, ∃ k, extractKey r ks cs = Except.ok k) →
      ∃ idx, buildKeyIndexGo ks cs start acc data = Except.ok idx
  | [], _, acc, _ => ⟨acc, rfl⟩
  | r :: rs, start, acc, hok => by
      obtain ⟨k0, hk0⟩ := hok r (List.mem_cons_self r rs)
      obtain ⟨idx, hidx⟩ := buildKeyIndexGo_ok ks cs rs (start + 1)
        (upsert acc k0 r) (fun x hx => hok x (List.mem_cons_of_mem r hx))
      exact ⟨idx, by simpa [buildKeyIndexGo, hk0] using hidx⟩

theorem applyMeta_actionType (dryRun includeMetadata : Bool) (ts : String)
    (a : Action) : (applyMeta dryRun includeMetadata ts a).actionType = a.actionType := by
  by_cases h : includeMetadata <;> simp [applyMeta, h]

theorem actionType_in_three_parts (D I U : List Action)
    (hD : ∀ a ∈ D, a.actionType = "DELETE")
    (hI : ∀ a ∈ I, a.actionType = "INSERT")
    (hU : ∀ a ∈ U, a.actionType = "UPDATE")
    (i : Nat) (hi : i < (D ++ I ++ U).length) :
    ((D ++ I ++ U).get ⟨i, hi⟩).actionType =
      if i < D.length then "DELETE"
      else if i < D.length + I.length then "INSERT" else "UPDATE" := by
  by_cases h1 : i < D.length
  · have h1' : i < (D ++ I).length := by
      simp only [List.length_append]
      omega
    have hget : (D ++ I ++ U).get ⟨i, hi⟩ = D.get ⟨i, h1⟩ := by
      simp only [List.get_eq_getElem]
      rw [List.getElem_append_left h1', List.getElem_append_left h1]
    rw [if_pos h1, hget]
    exact hD _ (List.get_mem _ _ _)
  · push_neg at h1
    by_cases h2 : i < D.length + I.length
    · have h2' : i < (D ++ I).length := by
        simp only [List.length_append]
        omega
      have hIdx : i - D.length < I.length := by omega
      have hget : (D ++ I ++ U).get ⟨i, hi⟩ = I.get ⟨i - D.length, hIdx⟩ := by
        simp only [List.get_eq_getElem]
        rw [List.getElem_append_left h2', List.getElem_append_right h1]
      rw [if_neg (by omega), if_pos h2, hget]
      exact hI _ (List.get_mem _ _ _)
    · push_neg at h2
      have h2' : (D ++ I).length ≤ i := by
        simp only [List.length_append]
        omega
      have hIdx : i - (D ++ I).length < U.length := by
        simp only [List.length_append] at hi ⊢
        omega
      have hget : (D ++ I ++ U).get ⟨i, hi⟩ =
          U.get ⟨i - (D ++ I).length, hIdx⟩ := by
        simp only [List.get_eq_getElem]
        rw [List.getElem_append_right h2']
      rw [if_neg (by omega), if_neg (by omega), hget]
      exact hU _ (List.get_mem _ _ _)

theorem rowLookup_eq_none (r : Row) (f : String)
    (h : f ∉ rowKeys r) : rowLookup r f = none := by
  induction r with
  | nil => rfl
  | cons p rs ih =>
      obtain ⟨k, v⟩ := p
      rw [show rowKeys ((k, v) :: rs) = k :: rowKeys rs from rfl,
        List.mem_cons, not_or] at h
      obtain ⟨h1, h2⟩ := h
      simp only [rowLookup, List.lookup_cons,
        show (f == k) = false from beq_eq_false_iff_ne.mpr h1]
      exact ih h2

theorem rowLookup_append_single (r : Row) (f g : String) (v : Value)
    (hfg : (f == g) = false) :
    rowLookup (r ++ [(g, v)]) f = rowLookup r f := by
  induction r with
  | nil => simp [rowLookup, List.lookup_cons, hfg, List.lookup]
  | cons p rs ih =>
      obtain ⟨k, w⟩ := p
      simp only [rowLookup, List.cons_append, List.lookup_cons]
      cases hk : f == k
      · simpa only [rowLookup] using ih
      · rfl

theorem extractKeySingle_of_some (row : Row) (f : String) (cs : Bool)
    (v : Value) (h : rowLookup row f = some v) (hv : v ≠ Value.nullV) :
    extractKeySingle row f cs =
      Except.ok (if cs then pyStr v else (pyStr v).toLower) := by
  unfold extractKeySingle
  rw [h]
  cases v <;> first | exact absurd rfl hv | rfl

/-! ## Claim theorems -/

/-- C7: for every supported value `v` (null, identifier, decimal, timestamp,
list, mapping, or other scalar), `normalize(normalize(v)) == normalize(v)` —
the comparer's `_normalize_value` is idempotent. -/
theorem normalize_idempotent (v : Value) :
    normalizeValue (normalizeValue v) = normalizeValue v :=
  normalizeValue_idem v

/-- C5: if every row before position `i` yields a key and the row at
position `i` fails key extraction, `build_key_index` returns an error whose
message carries the position `i` (and no index); and when every row yields a
key, an index is returned. -/
theorem build_key_index_fail_fast :
    (∀ (data : List Row) (ks : KeySpec) (cs : Bool) (i : Nat)
       (hi : i < data.length),
       (∀ (j : Nat) (hj : j < i),
         ∃ k, extractKey (data.get ⟨j, hj.trans hi⟩) ks cs = Except.ok k) →
       (∀ k, extractKey (data.get ⟨i, hi⟩) ks cs ≠ Except.ok k) →
       ∃ e, buildKeyIndex data ks cs =
         Except.error ("Invalid row at index " ++ toString i ++ ": " ++ e)) ∧
    (∀ (data : List Row) (ks : KeySpec) (cs : Bool),
       (∀ r ∈ data, ∃ k, extractKey r ks cs = Except.ok k) →
       ∃ idx, buildKeyIndex data ks cs = Except.ok idx) := by
  constructor
  · intro data ks cs i hi hok hfail
    simpa [buildKeyIndex] using
      buildKeyIndexGo_error ks cs data 0 i [] hi hok hfail
  · intro data ks cs hok
    simpa [buildKeyIndex] using buildKeyIndexGo_ok ks cs data 0 [] hok

/-- Witness for C5 at a concrete input: the second of two rows lacks the key
field `id`, the error names index 1; a fully keyed collection indexes. -/
theorem build_key_index_fail_fast_witness :
    (∃ e, buildKeyIndex [[("id", Value.strV "a")], [("x", Value.strV "b")]]
        (KeySpec.single "id") true =
        Except.error ("Invalid row at index 1: " ++ e)) ∧
    (∃ idx, buildKeyIndex [[("id", Value.strV "a")]] (KeySpec.single "id") true =
        Except.ok idx) := by
  constructor
  · exact build_key_index_fail_fast.1
      [[("id", Value.strV "a")], [("x", Value.strV "b")]]
      (KeySpec.single "id") true 1 (by norm_num)
      (fun j hj => by
        have hj0 : j = 0 := by omega
        subst hj0
        exact ⟨PyKey.str "a", rfl⟩)
      (fun k hk => by
        simp [extractKey, extractKeySingle, rowLookup, List.lookup,
          Except.map] at hk)
  · exact build_key_index_fail_fast.2 [[("id", Value.strV "a")]]
      (KeySpec.single "id") true
      (fun r hr => by
        simp only [List.mem_singleton] at hr
        subst hr
        exact ⟨PyKey.str "a", rfl⟩)

/-- C4 counterexample: two `compare_rows` calls with IDENTICAL arguments
(`float_tolerance` omitted) return different results when an interleaved
call passed an explicit `float_tolerance`: the tolerance is assigned to
`self.float_tolerance` and persists, so hidden mutable state influences the
outcome. -/
theorem compare_rows_hidden_state_cex :
    (compareRows defaultFloatTolerance
        [("x", Value.floatV 1)] [("x", Value.floatV (21 / 20))]
        none true none).1 = false ∧
    (compareRows
        ((compareRows defaultFloatTolerance
            [("x", Value.floatV 1)] [("x", Value.floatV (21 / 20))]
            none true (some (1 / 10))).2)
        [("x", Value.floatV 1)] [("x", Value.floatV (21 / 20))]
        none true none).1 = true := by
  constructor <;>
    norm_num [compareRows, compareRowsCore, commonFieldPairs, normalizeRow,
      normalizeDict, normalizeValue, rowKeys, rowGet, rowLookup, valuesEqual,
      List.lookup, defaultFloatTolerance, abs_lt]

/-- C4 amended: `compare_rows` is deterministic GIVEN the comparer's stored
tolerance: with an explicit `float_tolerance` argument the result is
independent of the stored tolerance and the argument becomes the new stored
tolerance; a call omitting it leaves the stored tolerance unchanged (but
reads it, as the counterexample shows). -/
theorem compare_rows_deterministic_given_tolerance (s1 s2 : ℚ) (a b : Row)
    (ig : Option (List String)) (cs : Bool) (t : ℚ) :
    (compareRows s1 a b ig cs (some t)).1 = (compareRows s2 a b ig cs (some t)).1 ∧
    (compareRows s1 a b ig cs (some t)).2 = t ∧
    (compareRows s1 a b ig cs none).2 = s1 :=
  ⟨rfl, rfl, rfl⟩

/-- C8 counterexample: with 3 source rows, 1 missing and 0 mismatches the
code returns the two-decimal rounding 66.67, not the exact fraction
`100 * (3 - 1 - 0) / 3` the claim states. -/
theorem match_percentage_exact_formula_cex :
    calculateMatchPercentage ⟨[[("k", Value.strV "1")]], [], []⟩ 3 ≠
      100 * ((3 : ℚ) - 1 - 0) / 3 := by
  norm_num [calculateMatchPercentage, pyRound2, roundHalfEven]

/-- C8 amended: `calculate_match_percentage` returns
`100 * (total_source - missing_count - mismatch_count) / total_source`
ROUNDED to two decimal places, and exactly 100.0 when `total_source == 0`. -/
theorem match_percentage_rounded_formula (d : Discrepancies) (t : Nat) :
    calculateMatchPercentage d 0 = 100 ∧
    (t ≠ 0 → calculateMatchPercentage d t =
      pyRound2 (100 * ((t : ℚ) - d.missing.length - d.mismatches.length) / t)) := by
  constructor
  · simp [calculateMatchPercentage]
  · intro ht
    simp only [calculateMatchPercentage, ht, if_false]
    congr 1
    have htQ : (t : ℚ) ≠ 0 := Nat.cast_ne_zero.mpr ht
    push_cast
    field_simp
    ring

/-- Witness for C8 at a concrete input (3 source rows, 1 missing). -/
theorem match_percentage_rounded_formula_witness :
    (3 : Nat) ≠ 0 ∧
    calculateMatchPercentage ⟨[[("k", Value.strV "1")]], [], []⟩ 3 =
      pyRound2 (100 * ((3 : ℚ) -
        (Discrepancies.mk [[("k", Value.strV "1")]] [] []).missing.length -
        (Discrepancies.mk [[("k", Value.strV "1")]] [] []).mismatches.length) / 3) :=
  ⟨by norm_num,
    (match_percentage_rounded_formula ⟨[[("k", Value.strV "1")]], [], []⟩ 3).2
      (by norm_num)⟩

/-- C1 (code bug): the repair-statement generators never quote column
identifiers, and `generate_repair_actions` never requests quoting, so an
INSERT for a row with a field named `order` carries the identifier bare (no
double quote appears anywhere in the statement); even the
`quote_identifiers=True` path quotes only the schema/table reference, never
the columns.  The repository's own unit tests require `"order"` quoted. -/
theorem repair_sql_identifiers_unquoted :
    ((generateRepairActions
        ⟨[[("id", Value.intV 1), ("order", Value.strV "ORD-123")]], [], []⟩
        "test_table" "test_schema" (KeySpec.single "id")
        false true true "T").map Action.sql) =
      ["INSERT INTO test_schema.test_table (id, order) VALUES (1, \x27ORD-123\x27);"] ∧
    ((generateInsertSql [("id", Value.intV 1), ("order", Value.strV "ORD-123")]
        "test_table" "test_schema" false "T").sql.data.contains '\x22') = false ∧
    (generateInsertSql [("id", Value.intV 1), ("order", Value.strV "ORD-123")]
        "test_table" "test_schema" true "T").sql =
      "INSERT INTO \"test_schema\".\"test_table\" (id, order) VALUES (1, \x27ORD-123\x27);" :=
  ⟨rfl, rfl, rfl⟩

/-- C2 (code bug): `_format_value` is a total function that never raises; a
value of an unsupported type reaches the default branch and is silently
converted to a quoted string literal (its `str()` form with single quotes
doubled).  The repository's own unit tests require a `TypeError` naming the
type instead. -/
theorem format_value_silently_stringifies :
    formatValue (Value.otherV "CustomObject" "custom repr") = "\x27custom repr\x27" ∧
    formatValue (Value.otherV "CustomObject" "it\x27s") = "\x27it\x27\x27s\x27" ∧
    (generateInsertSql [("id", Value.intV 1), ("obj", Value.otherV "CustomObject" "X")]
        "t" "s" false "T").sql =
      "INSERT INTO s.t (id, obj) VALUES (1, \x27X\x27);" :=
  ⟨rfl, rfl, rfl⟩

/-- C3 (code bug): with batch size 1 and the common keys appearing at
different offsets on the two sides, the batched variant intersects the i-th
source slice with the i-th target slice and reports 0 mismatches, while
`find_all_discrepancies` on the same input reports the 2 real mismatches
(missing/extra counts agree). -/
theorem batched_counts_diverge :
    findAllDiscrepanciesBatched
        [[("k", Value.strV "1"), ("v", Value.strV "a")],
         [("k", Value.strV "2"), ("v", Value.strV "b")]]
        [[("k", Value.strV "2"), ("v", Value.strV "X")],
         [("k", Value.strV "1"), ("v", Value.strV "Y")]]
        (KeySpec.single "k") 1 none = Except.ok ⟨0, 0, 0⟩ ∧
    (findAllDiscrepancies
        [[("k", Value.strV "1"), ("v", Value.strV "a")],
         [("k", Value.strV "2"), ("v", Value.strV "b")]]
        [[("k", Value.strV "2"), ("v", Value.strV "X")],
         [("k", Value.strV "1"), ("v", Value.strV "Y")]]
        (KeySpec.single "k") none).map
      (fun d => (d.missing.length, d.extra.length, d.mismatches.length)) =
      Except.ok (0, 0, 2) :=
  ⟨rfl, rfl⟩

/-- C6: in the list produced by `generate_repair_actions`, every DELETE
action precedes every INSERT action, and every INSERT action precedes every
UPDATE action (and hence every DELETE precedes every UPDATE). -/
theorem repair_actions_ordered (d : Discrepancies) (tableName schema : String)
    (ks : KeySpec) (dryRun includeMetadata prioritize : Bool) (ts : String)
    (as : List Action)
    (has : generateRepairActions d tableName schema ks dryRun includeMetadata
      prioritize ts = as) :
    ∀ (i j : Nat) (hi : i < as.length) (hj : j < as.length),
      ((as.get ⟨i, hi⟩).actionType = "DELETE" →
        (as.get ⟨j, hj⟩).actionType = "INSERT" → i < j) ∧
      ((as.get ⟨i, hi⟩).actionType = "INSERT" →
        (as.get ⟨j, hj⟩).actionType = "UPDATE" → i < j) ∧
      ((as.get ⟨i, hi⟩).actionType = "DELETE" →
        (as.get ⟨j, hj⟩).actionType = "UPDATE" → i < j) := by
  subst has
  obtain ⟨D, I, U, hEq, hD, hI, hU⟩ :
      ∃ D I U,
        generateRepairActions d tableName schema ks dryRun includeMetadata
          prioritize ts = D ++ I ++ U ∧
        (∀ a ∈ D, a.actionType = "DELETE") ∧
        (∀ a ∈ I, a.actionType = "INSERT") ∧
        (∀ a ∈ U, a.actionType = "UPDATE") := by
    refine ⟨(generateDeleteActions d.extra tableName schema ks ts).map
        (applyMeta dryRun includeMetadata ts),
      (d.missing.map fun r => generateInsertSql r tableName schema false ts).map
        (applyMeta dryRun includeMetadata ts),
      (generateUpdateActions d.mismatches tableName schema ks ts).map
        (applyMeta dryRun includeMetadata ts), ?_, ?_, ?_, ?_⟩
    · simp [generateRepairActions, List.map_append]
    · intro a ha
      simp only [List.mem_map] at ha
      obtain ⟨b, hb, rfl⟩ := ha
      rw [applyMeta_actionType]
      simp only [generateDeleteActions, List.mem_map] at hb
      obtain ⟨r, _, rfl⟩ := hb
      rfl
    · intro a ha
      simp only [List.mem_map] at ha
      obtain ⟨r, hr, rfl⟩ := ha
      rw [applyMeta_actionType]
      obtain ⟨x, _, rfl⟩ := hr
      rfl
    · intro a ha
      simp only [List.mem_map] at ha
      obtain ⟨b, hb, rfl⟩ := ha
      rw [applyMeta_actionType]
      simp only [generateUpdateActions, List.mem_map] at hb
      obtain ⟨r, _, rfl⟩ := hb
      rfl
  intro i j hi hj
  have hi2 : i < (D ++ I ++ U).length := hEq ▸ hi
  have hj2 : j < (D ++ I ++ U).length := hEq ▸ hj
  have egi : (generateRepairActions d tableName schema ks dryRun includeMetadata
      prioritize ts).get ⟨i, hi⟩ = (D ++ I ++ U).get ⟨i, hi2⟩ :=
    List.get_of_eq hEq ⟨i, hi⟩
  have egj : (generateRepairActions d tableName schema ks dryRun includeMetadata
      prioritize ts).get ⟨j, hj⟩ = (D ++ I ++ U).get ⟨j, hj2⟩ :=
    List.get_of_eq hEq ⟨j, hj⟩
  rw [egi, egj, actionType_in_three_parts D I U hD hI hU i hi2,
    actionType_in_three_parts D I U hD hI hU j hj2]
  refine ⟨?_, ?_, ?_⟩ <;> intro h1 h2 <;> split_ifs at h1 h2 <;>
    first
      | omega
      | exact absurd h1 (by decide)
      | exact absurd h2 (by decide)

/-- Witness for C6 on one discrepancy of each kind: the produced action list
is DELETE at 0, INSERT at 1, UPDATE at 2, and the orderings hold. -/
theorem repair_actions_ordered_witness :
    ((generateRepairActions
        ⟨[[("k", Value.strV "3")]], [[("k", Value.strV "4")]],
          [⟨PyKey.str "1", [("k", Value.strV "1"), ("v", Value.intV 1)],
            [("k", Value.strV "1"), ("v", Value.intV 2)]⟩]⟩
        "users" "cdc" (KeySpec.single "k") false true true "T").get
      ⟨0, by decide⟩).actionType = "DELETE" ∧
    ((generateRepairActions
        ⟨[[("k", Value.strV "3")]], [[("k", Value.strV "4")]],
          [⟨PyKey.str "1", [("k", Value.strV "1"), ("v", Value.intV 1)],
            [("k", Value.strV "1"), ("v", Value.intV 2)]⟩]⟩
        "users" "cdc" (KeySpec.single "k") false true true "T").get
      ⟨1, by decide⟩).actionType = "INSERT" ∧
    ((generateRepairActions
        ⟨[[("k", Value.strV "3")]], [[("k", Value.strV "4")]],
          [⟨PyKey.str "1", [("k", Value.strV "1"), ("v", Value.intV 1)],
            [("k", Value.strV "1"), ("v", Value.intV 2)]⟩]⟩
        "users" "cdc" (KeySpec.single "k") false true true "T").get
      ⟨2, by decide⟩).actionType = "UPDATE" ∧
    (0 : Nat) < 1 ∧ (1 : Nat) < 2 := by
  have hcall := repair_actions_ordered
    ⟨[[("k", Value.strV "3")]], [[("k", Value.strV "4")]],
      [⟨PyKey.str "1", [("k", Value.strV "1"), ("v", Value.intV 1)],
        [("k", Value.strV "1"), ("v", Value.intV 2)]⟩]⟩
    "users" "cdc" (KeySpec.single "k") false true true "T" _ rfl
  exact ⟨rfl, rfl, rfl,
    (hcall 0 1 (by decide) (by decide)).1 rfl rfl,
    (hcall 1 2 (by decide) (by decide)).2.1 rfl rfl⟩

/-- C9: key extraction is `str(value)`-based (lowercased only when keys are
case-insensitive), so any two non-null key values with the same string form
extract to identical keys; in particular the integer 1 and the string "1"
collide, and indexing two rows keyed by them collapses them into one entry
(last row wins). -/
theorem extract_key_string_identity :
    (∀ (r1 r2 : Row) (f : String) (cs : Bool) (v1 v2 : Value),
      rowLookup r1 f = some v1 → rowLookup r2 f = some v2 →
      v1 ≠ Value.nullV → v2 ≠ Value.nullV → pyStr v1 = pyStr v2 →
      extractKey r1 (KeySpec.single f) cs = extractKey r2 (KeySpec.single f) cs) ∧
    pyStr (Value.intV 1) = pyStr (Value.strV "1") ∧
    buildKeyIndex
        [[("id", Value.intV 1), ("v", Value.strV "a")],
         [("id", Value.strV "1"), ("v", Value.strV "b")]]
        (KeySpec.single "id") true =
      Except.ok [(PyKey.str "1", [("id", Value.strV "1"), ("v", Value.strV "b")])] := by
  refine ⟨?_, rfl, rfl⟩
  intro r1 r2 f cs v1 v2 h1 h2 hv1 hv2 hs
  simp only [extractKey]
  rw [extractKeySingle_of_some r1 f cs v1 h1 hv1,
    extractKeySingle_of_some r2 f cs v2 h2 hv2, hs]

/-- Witness for C9: the rows keyed by the integer 1 and the string "1"
extract the same key. -/
theorem extract_key_string_identity_witness :
    rowLookup [("id", Value.intV 1)] "id" = some (Value.intV 1) ∧
    rowLookup [("id", Value.strV "1")] "id" = some (Value.strV "1") ∧
    extractKey [("id", Value.intV 1)] (KeySpec.single "id") true =
      extractKey [("id", Value.strV "1")] (KeySpec.single "id") true :=
  ⟨rfl, rfl,
    extract_key_string_identity.1 [("id", Value.intV 1)] [("id", Value.strV "1")]
      "id" true (Value.intV 1) (Value.strV "1") rfl rfl
      (fun h => Value.noConfusion h) (fun h => Value.noConfusion h) rfl⟩

/-- C10: the batch INSERT takes its column list from the FIRST row only; a
first-row field absent from a later row renders as `NULL` at that field's
position in the row's values tuple, and a field present in a later row but
not in the first row has no effect on the statement (it is silently
omitted). -/
theorem batch_insert_first_row_fields (r0 : Row) (rest : List Row)
    (tableName schema : String) (q : Bool) (ts : String) :
    ((generateBatchInsertSql (r0 :: rest) tableName schema q ts).map Action.sql) =
      Except.ok ("INSERT INTO " ++ formatTableName schema tableName q ++ " (" ++
        String.intercalate ", " (rowKeys r0) ++ ") VALUES\n    " ++
        String.intercalate ",\n    " ((r0 :: rest).map fun r =>
          "(" ++ String.intercalate ", " (batchRowValues (rowKeys r0) r) ++ ")") ++
        ";") ∧
    (∀ (r : Row) (i : Nat) (hi : i < (rowKeys r0).length)
       (hi2 : i < (batchRowValues (rowKeys r0) r).length),
       (rowKeys r0).get ⟨i, hi⟩ ∉ rowKeys r →
       (batchRowValues (rowKeys r0) r).get ⟨i, hi2⟩ = "NULL") ∧
    (∀ (r : Row) (g : String) (v : Value), g ∉ rowKeys r0 →
       batchRowValues (rowKeys r0) (r ++ [(g, v)]) =
         batchRowValues (rowKeys r0) r) := by
  refine ⟨rfl, ?_, ?_⟩
  · intro r i hi hi2 habs
    have hmap : (batchRowValues (rowKeys r0) r).get ⟨i, hi2⟩ =
        formatValue ((rowLookup r ((rowKeys r0).get ⟨i, hi⟩)).getD Value.nullV) := by
      simp [batchRowValues, List.get_eq_getElem]
    rw [hmap, rowLookup_eq_none r _ habs]
    rfl
  · intro r g v hg
    unfold batchRowValues
    apply List.map_congr_left
    intro f hf
    have hfg : (f == g) = false := by
      refine beq_eq_false_iff_ne.mpr ?_
      intro hEq
      subst hEq
      exact hg hf
    rw [rowLookup_append_single r f g v hfg]

/-- Witness for C10: first row has fields `a, b`; the second row lacks `b`
(rendering NULL at its position) and its extra field `c` changes nothing. -/
theorem batch_insert_first_row_fields_witness :
    ((rowKeys [("a", Value.intV 1), ("b", Value.intV 2)]).get ⟨1, by decide⟩ ∉
      rowKeys [("a", Value.intV 3), ("c", Value.intV 9)]) ∧
    (batchRowValues (rowKeys [("a", Value.intV 1), ("b", Value.intV 2)])
        [("a", Value.intV 3), ("c", Value.intV 9)]).get ⟨1, by decide⟩ = "NULL" ∧
    ("c" ∉ rowKeys [("a", Value.intV 1), ("b", Value.intV 2)]) ∧
    batchRowValues (rowKeys [("a", Value.intV 1), ("b", Value.intV 2)])
        ([("a", Value.intV 3)] ++ [("c", Value.intV 9)]) =
      batchRowValues (rowKeys [("a", Value.intV 1), ("b", Value.intV 2)])
        [("a", Value.intV 3)] := by
  refine ⟨by decide, ?_, by decide, ?_⟩
  · exact (batch_insert_first_row_fields
      [("a", Value.intV 1), ("b", Value.intV 2)] [[("a", Value.intV 3), ("c", Value.intV 9)]]
      "t" "s" false "T").2.1 [("a", Value.intV 3), ("c", Value.intV 9)]
      1 (by decide) (by decide) (by decide)
  · exact (batch_insert_first_row_fields
      [("a", Value.intV 1), ("b", Value.intV 2)] []
      "t" "s" false "T").2.2 [("a", Value.intV 3)] "c" (Value.intV 9) (by decide)

end ScyllaPgCdc
